import Mathlib

/-!
Verification of the credential and secret-storage core of the flicksy
repository (src/services/crypto.ts, src/services/secureDataService.ts,
src/services/db.ts, src/services/secureStore.ts) against its
natural-language specification.

The TypeScript code is shallowly embedded: JavaScript strings are Lean
strings, Uint8Array values are lists of naturals below 256, and the
asynchronous service layer is modelled by explicit state passing over a
World record.  External npm libraries are modelled at their public API
boundary, exactly as the repository invokes them:

* crypto-js: its AES entry points dispatch on the configured block mode.
  The library implements the modes CBC, CFB, CTR, CTRGladman, OFB and ECB
  and no others; the property access CryptoJS.mode.GCM used by
  src/services/crypto.ts therefore yields undefined (the TypeScript cast
  "as any" in the source silences the type error), and the library then
  fails with a TypeError when it dereferences cfg.mode.createEncryptor or
  cfg.mode.createDecryptor.  The cipher cores of the modes that do exist
  are irrelevant to this repository (they are never reached) and are kept
  abstract as fields of JSEnv.
* scrypt-js: the entry point is scrypt(password, salt, N, r, p, dkLen) and
  validates each numeric parameter with ensureInteger, rejecting any
  non-number dkLen with Error("invalid dkLen").  The repository passes the
  freshly allocated output Uint8Array in the dkLen position and discards
  the resolved result.  The derivation core itself is kept abstract as a
  field of JSEnv.
* expo-crypto getRandomBytesAsync and the SHA-256 digest of
  crypto.subtle: modelled by a byte stream inside World and an abstract
  digest function in JSEnv.
* expo-sqlite: the two tables created by initializeSchema in
  src/services/db.ts are modelled as lists of rows, with the UNIQUE
  constraints and the upsert statement of that file reflected in the
  row-level operations.
-/

/-! ## JavaScript-level value helpers -/

/-- Hexadecimal digit characters as produced by Number.prototype.toString(16):
digits 0 to 9 then lowercase a to f.  Matches Nat.digitChar on values
below 16. -/
def hexDigitChar (n : Nat) : Char :=
  if n < 10 then Char.ofNat (48 + n) else Char.ofNat (87 + n)

/-- Rendering of one byte as done inside bytesToHex in
src/services/crypto.ts: b.toString(16).padStart(2, "0").  For b < 256 this
is exactly two lowercase hexadecimal digits; toString(16) emits a single
digit for b < 16 and padStart prepends the zero. -/
def byteToHex (b : Nat) : List Char :=
  if b < 16 then ['0', hexDigitChar b]
  else [hexDigitChar (b / 16), hexDigitChar (b % 16)]

/-- bytesToHex from src/services/crypto.ts: map each byte through
toString(16).padStart(2, "0") and join with the empty separator. -/
def bytesToHex (bytes : List Nat) : String :=
  String.mk (bytes.map byteToHex).flatten

/-- Value of one hexadecimal digit character, for the digits accepted by
parseInt with radix 16 (0-9, a-f, A-F). -/
def hexDigitVal (c : Char) : Option Nat :=
  if '0' ≤ c ∧ c ≤ '9' then some (c.toNat - 48)
  else if 'a' ≤ c ∧ c ≤ 'f' then some (c.toNat - 87)
  else if 'A' ≤ c ∧ c ≤ 'F' then some (c.toNat - 55)
  else none

/-- parseInt(s, 16) on a two-character slice, as used by hexToBytes in
src/services/crypto.ts, followed by storage into a Uint8Array element.
parseInt consumes the leading valid digits; when no digit is valid it
yields NaN, which a Uint8Array stores as 0. -/
def parseHexByte (c1 c2 : Char) : Nat :=
  match hexDigitVal c1, hexDigitVal c2 with
  | some h, some l => 16 * h + l
  | some h, none => h
  | none, _ => 0

/-- Pairwise traversal of the cleaned hexadecimal character list, mirroring
the loop arr[i] = parseInt(clean.substr(i * 2, 2), 16) over an array of
length clean.length / 2.  The repository only ever passes even-length
strings here (outputs of bytesToHex and 64-character key strings); on an
odd length the JavaScript code would have thrown a RangeError when
constructing the Uint8Array with a fractional length, a case no claim
exercises. -/
def hexPairsToBytes : List Char → List Nat
  | c1 :: c2 :: rest => parseHexByte c1 c2 :: hexPairsToBytes rest
  | _ => []

/-- hexToBytes from src/services/crypto.ts: strip a leading 0x prefix, then
parse consecutive two-character slices with parseInt(_, 16). -/
def hexToBytes (hex : String) : List Nat :=
  let clean : List Char :=
    match hex.data with
    | '0' :: 'x' :: rest => rest
    | l => l
  hexPairsToBytes clean

/-- UTF-8 encoding of one Unicode scalar value, as performed by
TextEncoder.prototype.encode. -/
def utf8EncodeChar (c : Char) : List Nat :=
  let n := c.toNat
  if n < 128 then [n]
  else if n < 2048 then [192 + n / 64, 128 + n % 64]
  else if n < 65536 then [224 + n / 4096, 128 + (n / 64) % 64, 128 + n % 64]
  else [240 + n / 262144, 128 + (n / 4096) % 64, 128 + (n / 64) % 64, 128 + n % 64]

/-- new TextEncoder().encode(s): the UTF-8 bytes of the string. -/
def utf8Bytes (s : String) : List Nat :=
  (s.data.map utf8EncodeChar).flatten

/-- Whitespace recognised by String.prototype.trim.  The repository only
trims user-supplied identifiers; the exotic Unicode space characters also
trimmed by JavaScript are omitted as no claim depends on them. -/
def jsWhitespaceChar (c : Char) : Bool :=
  c == ' ' || c == '\t' || c == '\n' || c == '\r' ||
  c == Char.ofNat 11 || c == Char.ofNat 12

/-- String.prototype.trim: drop whitespace from both ends. -/
def jsTrim (s : String) : String :=
  String.mk (((s.data.dropWhile jsWhitespaceChar).reverse.dropWhile jsWhitespaceChar).reverse)

/-- String.prototype.toLowerCase restricted to the ASCII range, which is
all the repository feeds it (identifiers such as email addresses). -/
def jsToLower (s : String) : String :=
  String.mk (s.data.map Char.toLower)

/-- constantTimeEqual from src/services/crypto.ts: after the public length
check, the loop accumulates diff |= a.charCodeAt(i) ^ b.charCodeAt(i) over
the whole string and finally tests diff === 0. -/
def constantTimeEqual (aHex bHex : String) : Bool :=
  if aHex.data.length != bHex.data.length then false
  else
    (List.zipWith (fun u v => u.toNat ^^^ v.toNat) aHex.data bHex.data).foldl
      (· ||| ·) 0 == 0

/-! ## External library boundary -/

/-- JavaScript exceptions that the modelled library calls can throw. -/
inductive JSError where
  /-- An Error object carrying a message, as thrown by scrypt-js and
  expo-sqlite. -/
  | jsError (message : String)
  /-- The TypeError raised by crypto-js when the configured block mode is
  undefined and the library reads createEncryptor or createDecryptor on
  it. -/
  | typeErrorUndefinedMode
  deriving DecidableEq, Repr

/-- The message property of the thrown object, read by the catch clause of
registerUser.  The exact TypeError text is engine specific; no claim
depends on it. -/
def jsErrorMessage : JSError → String
  | .jsError message => message
  | .typeErrorUndefinedMode => "Cannot read properties of undefined"

/-- The block cipher modes that crypto-js actually ships (CryptoJS.mode
namespace).  GCM is not among them. -/
inductive CJSMode where
  | CBC | CFB | CTR | CTRGladman | OFB | ECB
  deriving DecidableEq, Repr

/-- The property access CryptoJS.mode.GCM performed by
src/services/crypto.ts.  The mode namespace has no GCM member, so the
access yields undefined; the source cast "as any" suppresses the
TypeScript error this would otherwise raise. -/
def CryptoJS_mode_GCM : Option CJSMode := none

/-- The value passed by the repository in the dkLen position of the
scrypt-js entry point. -/
inductive ScryptDkLenArg where
  /-- An actual integer, as the scrypt-js API documents. -/
  | num (n : Nat)
  /-- A Uint8Array, which is what src/services/crypto.ts actually passes
  (the preallocated output buffer). -/
  | uint8array (buf : List Nat)
  deriving DecidableEq, Repr

/-- Abstract behaviour of the external cryptographic cores.  The digest and
key-derivation functions are pure and deterministic; their internals are
outside this repository. -/
structure JSEnv where
  /-- crypto.subtle.digest with SHA-256, on UTF-8 input bytes. -/
  sha256 : List Nat → List Nat
  /-- The scrypt derivation core of scrypt-js, taking password bytes, salt
  bytes, N, r, p and dkLen, returning dkLen derived bytes.  Only reached
  when the entry point receives a valid integer dkLen. -/
  scryptCore : List Nat → List Nat → Nat → Nat → Nat → Nat → List Nat
  /-- The cipher core of crypto-js for the modes the library does
  implement, producing the base64 rendering of encrypted.toString().
  Never reached by this repository. -/
  cjsEncryptRaw : CJSMode → List Nat → List Nat → String → String
  /-- The inverse cipher core of crypto-js plus CryptoJS.enc.Utf8.stringify.
  Never reached by this repository. -/
  cjsDecryptRaw : CJSMode → List Nat → List Nat → String → String

/-- The scrypt entry point of scrypt-js: scrypt(password, salt, N, r, p,
dkLen).  The library validates dkLen with ensureInteger, which throws
Error("invalid dkLen") for any value whose typeof is not number; a
Uint8Array therefore rejects before any derivation happens. -/
def scryptJS (env : JSEnv) (password salt : List Nat) (N r p : Nat)
    (dkLen : ScryptDkLenArg) : Except JSError (List Nat) :=
  match dkLen with
  | .num n => .ok (env.scryptCore password salt N r p n)
  | .uint8array _ => .error (.jsError "invalid dkLen")

/-- deriveKeyScrypt from src/services/crypto.ts.  It fixes N = 2 ^ 14,
r = 8, p = 1, allocates the zero-filled output buffer new
Uint8Array(keyLength), and calls scrypt(passwordBytes, salt, N, r, p, key)
with the buffer itself in the dkLen position; the awaited result of scrypt
is discarded and the local buffer is returned.  The TypeScript default for
keyLength is 32 and the only caller passes 32 explicitly. -/
def deriveKeyScrypt (env : JSEnv) (password : String) (salt : List Nat)
    (keyLength : Nat) : Except JSError (List Nat) :=
  let N := 2 ^ 14
  let r := 8
  let p := 1
  let key := List.replicate keyLength 0
  let passwordBytes := utf8Bytes password
  match scryptJS env passwordBytes salt N r p (.uint8array key) with
  | .error e => .error e
  | .ok _ => .ok key

/-- CryptoJS.AES.encrypt as invoked with an explicit key WordArray and a
configuration object.  BlockCipher.reset reads cfg.mode and immediately
dereferences mode.createEncryptor, so an undefined mode throws a TypeError
before any encryption work; a defined mode runs the abstract cipher
core. -/
def CryptoJS_AES_encrypt (env : JSEnv) (plaintext : String) (key iv : List Nat)
    (mode : Option CJSMode) : Except JSError String :=
  match mode with
  | none => .error .typeErrorUndefinedMode
  | some m => .ok (env.cjsEncryptRaw m key iv plaintext)

/-- CryptoJS.AES.decrypt, symmetric to CryptoJS_AES_encrypt: the decryptor
construction dereferences mode.createDecryptor, so an undefined mode
throws the same TypeError for every ciphertext, tampered or not. -/
def CryptoJS_AES_decrypt (env : JSEnv) (ciphertextBase64 : String)
    (key iv : List Nat) (mode : Option CJSMode) : Except JSError String :=
  match mode with
  | none => .error .typeErrorUndefinedMode
  | some m => .ok (env.cjsDecryptRaw m key iv ciphertextBase64)

/-! ## World state -/

/-- Row of the users table created by initializeSchema in
src/services/db.ts: id INTEGER PRIMARY KEY AUTOINCREMENT, username_hash
TEXT NOT NULL UNIQUE, password_hash, password_salt, created_at. -/
structure UserRow where
  id : Nat
  username_hash : String
  password_hash : String
  password_salt : String
  created_at : Nat
  deriving DecidableEq, Repr

/-- Row of the api_keys table created by initializeSchema in
src/services/db.ts, with UNIQUE(service_name). -/
structure ApiKeyRow where
  id : Nat
  service_name : String
  key_ciphertext : String
  iv : String
  created_at : Nat
  deriving DecidableEq, Repr

/-- Observable effects recorded while the service layer runs, used to state
that an operation did or did not touch the master key or attempt a
decryption. -/
inductive Event where
  /-- ensureMasterKey was invoked (a secure-container access). -/
  | masterKeyAccess
  /-- decryptWithAesGcm was invoked on a stored record. -/
  | decryptAttempt
  deriving DecidableEq, Repr

/-- Process state threaded through the asynchronous service layer: the two
SQLite tables with their AUTOINCREMENT counters, the single secure-store
entry holding the master key, the CSPRNG byte stream of expo-crypto with
its consumption index, the Date.now clock, and the effect trace. -/
structure World where
  users : List UserRow
  apiKeys : List ApiKeyRow
  nextUserId : Nat
  nextApiKeyId : Nat
  secureStore : Option String
  rand : Nat → Nat
  randIdx : Nat
  now : Nat
  trace : List Event

/-- generateRandomBytes from src/services/crypto.ts: draw byteLength fresh
bytes from the platform CSPRNG (expo-crypto getRandomBytesAsync).  The
stream position advances so that successive calls read disjoint portions
of the entropy stream; the mod 256 reflects that getRandomBytesAsync
returns a Uint8Array of genuine bytes. -/
def generateRandomBytes (byteLength : Nat) (w : World) : List Nat × World :=
  ((List.range byteLength).map (fun i => w.rand (w.randIdx + i) % 256),
   { w with randIdx := w.randIdx + byteLength })

/-! ## Local relational store (src/services/db.ts) -/

/-- findUserByUsernameHash from src/services/db.ts: SELECT * FROM users
WHERE username_hash = ?, returning the first row when any exists. -/
def findUserByUsernameHash (usernameHash : String) (w : World) : Option UserRow :=
  (w.users.filter (fun u => u.username_hash == usernameHash)).head?

/-- insertUser from src/services/db.ts: INSERT INTO users.  The UNIQUE
constraint on username_hash makes the insert fail when a row with the same
hash exists; otherwise the row is appended with the AUTOINCREMENT id and
created_at = Date.now(), and lastInsertRowId is returned. -/
def insertUser (usernameHash passwordHash passwordSalt : String) (w : World) :
    Except JSError Nat × World :=
  if w.users.any (fun u => u.username_hash == usernameHash) then
    (.error (.jsError "UNIQUE constraint failed: users.username_hash"), w)
  else
    (.ok w.nextUserId,
     { w with
        users := w.users ++
          [{ id := w.nextUserId, username_hash := usernameHash,
             password_hash := passwordHash, password_salt := passwordSalt,
             created_at := w.now }],
        nextUserId := w.nextUserId + 1 })

/-- upsertApiKey from src/services/db.ts: INSERT INTO api_keys ... ON
CONFLICT(service_name) DO UPDATE SET key_ciphertext, iv, created_at.  On
conflict the existing row keeps its id and service_name and receives the
new ciphertext, iv and timestamp; otherwise a fresh row is appended.  The
returned number models result.changes. -/
def upsertApiKey (serviceName keyCiphertext iv : String) (w : World) :
    Nat × World :=
  if w.apiKeys.any (fun row => row.service_name == serviceName) then
    (1, { w with
            apiKeys := w.apiKeys.map (fun row =>
              if row.service_name == serviceName then
                { row with key_ciphertext := keyCiphertext, iv := iv,
                           created_at := w.now }
              else row) })
  else
    (1, { w with
            apiKeys := w.apiKeys ++
              [{ id := w.nextApiKeyId, service_name := serviceName,
                 key_ciphertext := keyCiphertext, iv := iv,
                 created_at := w.now }],
            nextApiKeyId := w.nextApiKeyId + 1 })

/-- getApiKey from src/services/db.ts: SELECT * FROM api_keys WHERE
service_name = ?, returning the first row when any exists. -/
def getApiKey (serviceName : String) (w : World) : Option ApiKeyRow :=
  (w.apiKeys.filter (fun row => row.service_name == serviceName)).head?

/-! ## Remaining crypto.ts operations -/

/-- hashPasswordScrypt from src/services/crypto.ts.  The salt is
hexToBytes(saltHex) when a truthy salt string is supplied (the empty
string is falsy in JavaScript) and 16 fresh random bytes otherwise; the
key is derived with deriveKeyScrypt(password, salt, 32) and both are
returned hex encoded.  The scrypt rejection propagates out of the
async function. -/
def hashPasswordScrypt (env : JSEnv) (password : String)
    (saltHex : Option String) (w : World) :
    Except JSError (String × String) × World :=
  let saltAndW :=
    match saltHex with
    | some s => if s == "" then generateRandomBytes 16 w else (hexToBytes s, w)
    | none => generateRandomBytes 16 w
  match deriveKeyScrypt env password saltAndW.1 32 with
  | .error e => (.error e, saltAndW.2)
  | .ok key => (.ok (bytesToHex key, bytesToHex saltAndW.1), saltAndW.2)

/-- encryptWithAesGcm from src/services/crypto.ts: draw a fresh 12-byte iv
from the CSPRNG, parse the key and iv hex strings into WordArrays, and call
CryptoJS.AES.encrypt with mode CryptoJS.mode.GCM and NoPadding.  On success
the function would return the base64 ciphertext paired with the hex iv. -/
def encryptWithAesGcm (env : JSEnv) (plaintext keyHex : String) (w : World) :
    Except JSError (String × String) × World :=
  let drawn := generateRandomBytes 12 w
  let iv := drawn.1
  match CryptoJS_AES_encrypt env plaintext (hexToBytes keyHex)
      (hexToBytes (bytesToHex iv)) CryptoJS_mode_GCM with
  | .error e => (.error e, drawn.2)
  | .ok ciphertextBase64 => (.ok (ciphertextBase64, bytesToHex iv), drawn.2)

/-- decryptWithAesGcm from src/services/crypto.ts: parse the key and iv and
call CryptoJS.AES.decrypt with mode CryptoJS.mode.GCM and NoPadding, then
stringify the result as UTF-8. -/
def decryptWithAesGcm (env : JSEnv) (ciphertextBase64 keyHex ivHex : String) :
    Except JSError String :=
  CryptoJS_AES_decrypt env ciphertextBase64 (hexToBytes keyHex)
    (hexToBytes ivHex) CryptoJS_mode_GCM

/-! ## Secure key container and service layer
(src/services/secureStore.ts, src/services/secureDataService.ts) -/

/-- Modelled from the spec: the file services/secureStore.ts is referenced
by the repository (the import in src/services/secureDataService.ts and the
README) but is not present under src.  Per spec section 4.4, getOrCreate
reads the value stored under the single fixed identifier; if absent it
invokes the generator, persists the generated key under that identifier,
and returns it.  The single identifier is modelled by the single
secureStore field of World. -/
def getOrCreateMasterKey (generator : World → String × World) (w : World) :
    String × World :=
  match w.secureStore with
  | some keyHex => (keyHex, w)
  | none =>
      let generated := generator w
      (generated.1, { generated.2 with secureStore := some generated.1 })

/-- ensureMasterKey from src/services/secureDataService.ts: fetch or lazily
create the 32-byte master key through the secure container, hex encoded.
The trace records the secure-container access. -/
def ensureMasterKey (w : World) : String × World :=
  getOrCreateMasterKey
    (fun wa =>
      let key := generateRandomBytes 32 wa
      (bytesToHex key.1, key.2))
    { w with trace := w.trace ++ [Event.masterKeyAccess] }

/-- hashUsername from src/services/secureDataService.ts: normalize with
trim().toLowerCase() and digest with SHA-256, hex encoded
(cryptoDigestHex). -/
def hashUsername (env : JSEnv) (username : String) : String :=
  bytesToHex (env.sha256 (utf8Bytes (jsToLower (jsTrim username))))

/-- Result type of registerUser in src/services/secureDataService.ts:
either an object with a userId or an object with an error message. -/
inductive RegisterResult where
  | userId (id : Nat)
  | error (message : String)
  deriving DecidableEq, Repr

/-- registerUser from src/services/secureDataService.ts: hash the
normalized username, return the already-exists error when a row with that
hash is found, otherwise hash the password with a fresh salt and insert the
row.  Every thrown error is caught and surfaced as the message field. -/
def registerUser (env : JSEnv) (username password : String) (w : World) :
    RegisterResult × World :=
  let usernameHash := hashUsername env username
  match findUserByUsernameHash usernameHash w with
  | some _ => (.error "User already exists", w)
  | none =>
      match hashPasswordScrypt env password none w with
      | (.error e, w1) => (.error (jsErrorMessage e), w1)
      | (.ok hashAndSalt, w1) =>
          match insertUser usernameHash hashAndSalt.1 hashAndSalt.2 w1 with
          | (.error e, w2) => (.error (jsErrorMessage e), w2)
          | (.ok uid, w2) => (.userId uid, w2)

/-- authenticateUser from src/services/secureDataService.ts: hash the
normalized username and look the user up; absent means false.  Otherwise
recompute the password hash with the stored salt and compare with
constantTimeEqual.  There is no try/catch here, so a rejection from the
hashing step propagates to the caller instead of producing a boolean. -/
def authenticateUser (env : JSEnv) (username password : String) (w : World) :
    Except JSError Bool × World :=
  match findUserByUsernameHash (hashUsername env username) w with
  | none => (.ok false, w)
  | some user =>
      match hashPasswordScrypt env password (some user.password_salt) w with
      | (.error e, w1) => (.error e, w1)
      | (.ok recomputed, w1) =>
          (.ok (constantTimeEqual recomputed.1 user.password_hash), w1)

/-- storeEncryptedApiKey from src/services/secureDataService.ts: the source
calls ensureMasterKey twice (the first result is discarded), encrypts the
plaintext under the master key, and upserts the ciphertext and iv under the
service name.  A rejection from the cipher propagates and skips the
upsert. -/
def storeEncryptedApiKey (env : JSEnv) (serviceName apiKeyPlaintext : String)
    (w : World) : Except JSError Unit × World :=
  let first := ensureMasterKey w
  let second := ensureMasterKey first.2
  match encryptWithAesGcm env apiKeyPlaintext second.1 second.2 with
  | (.error e, w3) => (.error e, w3)
  | (.ok enc, w3) =>
      let upserted := upsertApiKey serviceName enc.1 enc.2 w3
      (.ok (), upserted.2)

/-- retrieveDecryptedApiKey from src/services/secureDataService.ts: look
the record up first and return null when it is absent, before any
master-key or cipher work; otherwise fetch the master key and decrypt the
stored ciphertext with the stored iv.  The decryptAttempt event marks the
call into decryptWithAesGcm. -/
def retrieveDecryptedApiKey (env : JSEnv) (serviceName : String) (w : World) :
    Except JSError (Option String) × World :=
  match getApiKey serviceName w with
  | none => (.ok none, w)
  | some record =>
      let master := ensureMasterKey w
      let w2 := { master.2 with trace := master.2.trace ++ [Event.decryptAttempt] }
      match decryptWithAesGcm env record.key_ciphertext master.1 record.iv with
      | .error e => (.error e, w2)
      | .ok plaintext => (.ok (some plaintext), w2)

/-! ## Concrete instances for closed evaluations -/

/-- Concrete environment for closed evaluations: the digest is the identity
on byte lists (injective, so distinct normalized identities get distinct
hashes) and the remaining cores are trivial stubs, none of which any
executed path reaches. -/
def envId : JSEnv where
  sha256 := fun bs => bs
  scryptCore := fun _ _ _ _ _ n => List.replicate n 0
  cjsEncryptRaw := fun _ _ _ _ => ""
  cjsDecryptRaw := fun _ _ _ _ => ""

/-- Empty initial world: empty tables, no master key, an all-zero entropy
stream, clock at zero. -/
def w0 : World where
  users := []
  apiKeys := []
  nextUserId := 1
  nextApiKeyId := 1
  secureStore := none
  rand := fun _ => 0
  randIdx := 0
  now := 0
  trace := []

/-! ## Helper lemmas -/

theorem lor_eq_zero_iff (a b : Nat) : a ||| b = 0 ↔ a = 0 ∧ b = 0 := by
  constructor
  · intro h
    have hbit : ∀ i, a.testBit i = false ∧ b.testBit i = false := by
      intro i
      have hb := congrArg (fun n => Nat.testBit n i) h
      simpa [Nat.testBit_lor] using hb
    exact ⟨Nat.eq_of_testBit_eq fun i => by simp [(hbit i).1],
           Nat.eq_of_testBit_eq fun i => by simp [(hbit i).2]⟩
  · rintro ⟨rfl, rfl⟩
    rfl

theorem foldl_lor_eq_zero (l : List Nat) (acc : Nat) :
    l.foldl (· ||| ·) acc = 0 ↔ acc = 0 ∧ ∀ x ∈ l, x = 0 := by
  induction l generalizing acc with
  | nil => simp
  | cons x xs ih =>
      rw [List.foldl_cons, ih, lor_eq_zero_iff]
      simp only [List.mem_cons]
      constructor
      · rintro ⟨⟨h1, h2⟩, h3⟩
        exact ⟨h1, fun y hy => hy.elim (fun e => e ▸ h2) (h3 y)⟩
      · rintro ⟨h1, h2⟩
        exact ⟨⟨h1, h2 x (Or.inl rfl)⟩, fun y hy => h2 y (Or.inr hy)⟩

theorem char_toNat_injective {a b : Char} (h : a.toNat = b.toNat) : a = b := by
  have := congrArg Char.ofNat h
  rwa [Char.ofNat_toNat, Char.ofNat_toNat] at this

theorem zipWith_xor_all_zero (a : List Char) :
    ∀ b : List Char, a.length = b.length →
      ((∀ x ∈ List.zipWith (fun u v => u.toNat ^^^ v.toNat) a b, x = 0) ↔ a = b) := by
  induction a with
  | nil =>
      intro b h
      cases b with
      | nil => simp
      | cons d ds => simp at h
  | cons c cs ih =>
      intro b h
      cases b with
      | nil => simp at h
      | cons d ds =>
          have hlen : cs.length = ds.length := by simpa using h
          simp only [List.zipWith_cons_cons, List.mem_cons]
          constructor
          · intro hall
            have hx : c.toNat ^^^ d.toNat = 0 := hall _ (Or.inl rfl)
            have hcd : c = d := char_toNat_injective (Nat.xor_eq_zero.mp hx)
            have htail : cs = ds :=
              (ih ds hlen).mp (fun x hx2 => hall x (Or.inr hx2))
            rw [hcd, htail]
          · intro he
            injection he with h1 h2
            intro x hx
            rcases hx with h3 | h3
            · rw [h3, h1]
              exact Nat.xor_eq_zero.mpr rfl
            · exact (ih ds hlen).mpr h2 x h3

/-- Evaluation of hashPasswordScrypt when no salt is supplied: the 16
fresh salt bytes are drawn, then the malformed scrypt-js call rejects with
Error("invalid dkLen"), so the function always propagates that
rejection. -/
theorem hashPasswordScrypt_none_rejects (env : JSEnv) (password : String)
    (w : World) :
    hashPasswordScrypt env password none w =
      (.error (.jsError "invalid dkLen"), { w with randIdx := w.randIdx + 16 }) := rfl

/-! ## Claims -/

/-- Claim C10: constantTimeEqual returns true exactly when the two strings
are identical, that is when they have equal length and equal character
codes at every index; in particular it decides exact equality of the
hex-encoded password hashes compared during authentication. -/
theorem c10_constantTimeEqual_decides_equality (a b : String) :
    constantTimeEqual a b = true ↔ a = b := by
  rw [constantTimeEqual]
  split
  next hne =>
    constructor
    · intro hfalse
      simp at hfalse
    · intro he
      subst he
      simp at hne
  next hne =>
    have hlen : a.data.length = b.data.length := by
      by_contra hcon
      exact hne (by simpa [bne_iff_ne] using hcon)
    rw [beq_iff_eq, foldl_lor_eq_zero, zipWith_xor_all_zero a.data b.data hlen]
    constructor
    · intro hd
      exact String.ext hd.2
    · intro he
      exact ⟨rfl, by rw [he]⟩

/-- Witness for claim C10 at concrete inputs: equal strings compare true,
a one-character difference compares false. -/
theorem c10_witness :
    constantTimeEqual "deadbeef" "deadbeef" = true ∧
      constantTimeEqual "deadbeef" "deadbeee" = false :=
  ⟨(c10_constantTimeEqual_decides_equality "deadbeef" "deadbeef").mpr rfl,
   by
    cases hc : constantTimeEqual "deadbeef" "deadbeee" with
    | false => rfl
    | true =>
        exact absurd
          ((c10_constantTimeEqual_decides_equality "deadbeef" "deadbeee").mp hc)
          (by decide)⟩

/-- Claim C5: when a row with the normalized identity hash already exists,
a second registerUser call returns the already-exists error and the world
is returned unchanged, so the users table, the first row (id, password
hash, salt) and every other component of the state are exactly as before
and no second row with that identity hash is inserted. -/
theorem c5_duplicate_register_rejected (env : JSEnv)
    (username password : String) (w : World) (user : UserRow)
    (h : findUserByUsernameHash (hashUsername env username) w = some user) :
    registerUser env username password w = (.error "User already exists", w) := by
  simp only [registerUser, h]

/-- Row seeded for the C5 witness, standing for a previously registered
alice account. -/
def aliceRow : UserRow where
  id := 1
  username_hash := hashUsername envId "alice@example.com"
  password_hash := "aa"
  password_salt := "00ff"
  created_at := 0

/-- World already holding the alice row. -/
def wAlice : World := { w0 with users := [aliceRow] }

/-- Witness for claim C5 at the concrete input of Scenario B. -/
theorem c5_witness :
    findUserByUsernameHash (hashUsername envId "alice@example.com") wAlice =
        some aliceRow ∧
      registerUser envId "alice@example.com" "x" wAlice =
        (.error "User already exists", wAlice) :=
  ⟨by decide,
   c5_duplicate_register_rejected envId "alice@example.com" "x" wAlice aliceRow
     (by decide)⟩

/-- Claim C9: when no row exists for the service name,
retrieveDecryptedApiKey returns the absent result (null, not an error) and
leaves the world untouched: the trace gains no masterKeyAccess and no
decryptAttempt event, the secure store is not read or created, and no
entropy is consumed, so no master-key access or decryption happens. -/
theorem c9_retrieve_absent_is_null_without_key_access (env : JSEnv)
    (serviceName : String) (w : World)
    (h : getApiKey serviceName w = none) :
    retrieveDecryptedApiKey env serviceName w = (.ok none, w) := by
  simp only [retrieveDecryptedApiKey, h]

/-- Witness for claim C9 at the concrete input of Scenario C. -/
theorem c9_witness :
    getApiKey "unknown-service" w0 = none ∧
      retrieveDecryptedApiKey envId "unknown-service" w0 = (.ok none, w0) :=
  ⟨by decide,
   c9_retrieve_absent_is_null_without_key_access envId "unknown-service" w0
     (by decide)⟩

/-- Claim C1 (code bug): the round trip decrypt(encrypt(t, k), k) = t never
holds because neither direction ever completes.  crypto-js has no GCM mode,
so the CryptoJS.mode.GCM configuration is undefined and both
encryptWithAesGcm and decryptWithAesGcm throw a TypeError on every input
before producing any ciphertext or plaintext. -/
theorem c1_roundtrip_impossible (env : JSEnv)
    (plaintext keyHex ciphertextBase64 ivHex : String) (w : World) :
    (encryptWithAesGcm env plaintext keyHex w).1 =
        .error .typeErrorUndefinedMode ∧
      decryptWithAesGcm env ciphertextBase64 keyHex ivHex =
        .error .typeErrorUndefinedMode :=
  ⟨rfl, rfl⟩

/-- Row standing for a persisted secret (however it got into the table),
used to evaluate retrieval under claim C2. -/
def tmdbRow : ApiKeyRow where
  id := 1
  service_name := "tmdb"
  key_ciphertext := "Y2lwaGVy"
  iv := "000102030405060708090a0b"
  created_at := 0

/-- World already holding the tmdb secret row. -/
def wTmdb : World := { w0 with apiKeys := [tmdbRow] }

/-- Claim C2 (code bug): there is no tamper detection.  decryptWithAesGcm
fails with the identical TypeError for every ciphertext and nonce, tampered
or not, so the failure is not a distinct tamper error and an untampered
record is equally unreadable; storeEncryptedApiKey itself always fails at
the cipher step, so no secret is ever persisted by it; and retrieval of a
record present in the table surfaces the same TypeError rather than either
a plaintext or an absence. -/
theorem c2_no_tamper_detection (env : JSEnv)
    (ct1 ct2 key iv1 iv2 serviceName plaintext : String) (w : World) :
    decryptWithAesGcm env ct1 key iv1 = decryptWithAesGcm env ct2 key iv2 ∧
      decryptWithAesGcm env ct1 key iv1 = .error .typeErrorUndefinedMode ∧
      (storeEncryptedApiKey env serviceName plaintext w).1 =
        .error .typeErrorUndefinedMode ∧
      (retrieveDecryptedApiKey envId "tmdb" wTmdb).1 =
        .error .typeErrorUndefinedMode :=
  ⟨rfl, rfl, rfl, rfl⟩

/-- Claim C3 (code bug): registerUser can never return a userId.  The
malformed scrypt-js invocation (the output buffer passed in the dkLen
position) rejects every password-hashing attempt, the catch clause turns it
into the error result, and in particular the Scenario A registration
returns the invalid-dkLen error on an empty database while leaving the
users table empty. -/
theorem c3_register_never_returns_userId :
    (∀ (env : JSEnv) (username password : String) (w : World),
        ∃ message, (registerUser env username password w).1 = .error message) ∧
      (registerUser envId "alice@example.com" "Secur3P@ss" w0).1 =
          .error "invalid dkLen" ∧
      (registerUser envId "alice@example.com" "Secur3P@ss" w0).2.users = [] := by
  refine ⟨?_, by decide, by decide⟩
  intro env username password w
  rw [registerUser]
  split
  · exact ⟨"User already exists", rfl⟩
  · rw [hashPasswordScrypt_none_rejects]
    exact ⟨"invalid dkLen", rfl⟩

/-- Row standing for a registered account under the identity
real@example.com, seeded directly since registerUser itself can never
complete a registration. -/
def realRow : UserRow where
  id := 1
  username_hash := hashUsername envId "real@example.com"
  password_hash := "aa"
  password_salt := "00ff"
  created_at := 0

/-- World already holding the real@example.com row. -/
def wReal : World := { w0 with users := [realRow] }

/-- Claim C4 (code bug): the unknown-identity path does return the bare
boolean false, but the registered-identity wrong-password path never
reaches the comparison: the malformed scrypt-js call rejects, and
authenticateUser has no catch, so the call throws Error("invalid dkLen")
instead of returning false — an observable difference in shape between the
two cases. -/
theorem c4_wrong_password_throws_instead_of_false :
    authenticateUser envId "nosuchuser@example.com" "anything" wReal =
        (.ok false, wReal) ∧
      authenticateUser envId "real@example.com" "wrongpassword" wReal =
        (.error (.jsError "invalid dkLen"), wReal) :=
  ⟨rfl, rfl⟩

/-- Claim C6 (code bug): the two stores of Scenario P7 never reach the
upsert.  Both storeEncryptedApiKey calls fail at the cipher step with the
TypeError from the undefined GCM mode, the secrets table is left with zero
rows for tmdb instead of exactly one, and the subsequent retrieval returns
the absent result instead of KEY2. -/
theorem c6_upsert_scenario_fails :
    (storeEncryptedApiKey envId "tmdb" "KEY1" w0).1 =
        .error .typeErrorUndefinedMode ∧
      ((storeEncryptedApiKey envId "tmdb" "KEY1" w0).2).apiKeys = [] ∧
      (storeEncryptedApiKey envId "tmdb" "KEY2"
          (storeEncryptedApiKey envId "tmdb" "KEY1" w0).2).1 =
        .error .typeErrorUndefinedMode ∧
      ((storeEncryptedApiKey envId "tmdb" "KEY2"
          (storeEncryptedApiKey envId "tmdb" "KEY1" w0).2).2).apiKeys = [] ∧
      (retrieveDecryptedApiKey envId "tmdb"
          (storeEncryptedApiKey envId "tmdb" "KEY2"
            (storeEncryptedApiKey envId "tmdb" "KEY1" w0).2).2).1 = .ok none :=
  ⟨rfl, by decide, rfl, by decide, rfl⟩

/-- Claim C7 (code bug): deriveKeyScrypt never derives a key.  The source
does fix N = 2 ^ 14, r = 8, p = 1 and a 32-byte buffer, but it passes that
buffer where scrypt-js expects the integer output length, so every call —
for every password, salt and requested length — rejects with
Error("invalid dkLen"), and the scrypt output would in any case be
discarded in favour of the untouched zero buffer. -/
theorem c7_deriveKeyScrypt_always_rejects (env : JSEnv) (password : String)
    (salt : List Nat) (keyLength : Nat) :
    deriveKeyScrypt env password salt keyLength =
      .error (.jsError "invalid dkLen") :=
  rfl

/-- Claim C8 (code bug): every encryptWithAesGcm call does draw exactly the
next 12 bytes of the CSPRNG stream (the entropy index advances by 12, so
successive calls read disjoint, fresh draws and no nonce is cached or
caller supplied), but the call then throws the TypeError from the undefined
GCM mode before returning, so the hex-encoded nonce is never returned to
any caller. -/
theorem c8_nonce_drawn_but_never_returned (env : JSEnv)
    (plaintext keyHex : String) (w : World) :
    (encryptWithAesGcm env plaintext keyHex w).2 =
        { w with randIdx := w.randIdx + 12 } ∧
      (encryptWithAesGcm env plaintext keyHex w).1 =
        .error .typeErrorUndefinedMode :=
  ⟨rfl, rfl⟩
